import Mathlib

/-!
Verification development for the content-addressed persistence layer of the
AutoRAG repository: the disk-backed TTL cache (`modules/cache_manager.py`,
class `CacheManager`) and the incremental file-change tracker
(`modules/incremental_processing_module.py`, class
`IncrementalProcessingModule`).

Modelling conventions:
* Python dicts are association lists over `String` keys with in-place
  replacement on assignment (`dictLookup` / `dictInsert` / `dictRemove`).
* Clock values (`time.time()`) are `Int` seconds; `datetime.now().isoformat()`
  timestamps are opaque `String`s supplied by the caller.
* The MD5 digest of a path (`hashlib.md5(project_path.encode())`) is an
  abstract function parameter `digest : String → String`; no claim depends on
  properties of MD5 itself.  `os.path.abspath` is the identity on the model's
  path strings (paths are taken pre-normalised).
* The on-disk payload files of the cache are the `files` map of `CacheState`;
  a fallible filesystem write is modelled by an explicit `writeOk : Bool`
  outcome (the write either fully succeeds or raises).
* The payload (`Dict[str, Any]` in the source) is an opaque type parameter.
-/

/-- Python dict lookup `d.get(k)` / `k in d` over an insertion-ordered dict. -/
def dictLookup {α : Type} : List (String × α) → String → Option α
  | [], _ => none
  | (k, v) :: t, key => if k = key then some v else dictLookup t key

/-- Python dict assignment `d[k] = v`: replaces in place, else appends. -/
def dictInsert {α : Type} : List (String × α) → String → α → List (String × α)
  | [], key, v => [(key, v)]
  | (k, w) :: t, key, v =>
      if k = key then (key, v) :: t else (k, w) :: dictInsert t key v

/-- Python `del d[k]`. -/
def dictRemove {α : Type} (l : List (String × α)) (key : String) :
    List (String × α) :=
  l.filter (fun kv => kv.1 ≠ key)

/-- Cache statistics counters (`CacheManager.stats`). -/
structure CacheStats where
  hits : Nat
  misses : Nat
  sets : Nat
  evictions : Nat
  errors : Nat
deriving Repr, DecidableEq

/-- The zeroed counter dict the constructor and `clear` install. -/
def CacheStats.init : CacheStats :=
  { hits := 0, misses := 0, sets := 0, evictions := 0, errors := 0 }

/-- One row of `cache_index.json` (`self.index[cache_key]`). -/
structure IndexEntry where
  project_path : String
  cache_type : String
  project_hash : String
  created_at : Int
  last_accessed : Int
  size : Nat
deriving Repr, DecidableEq

/-- Contents of one payload file `<shard>/<cache_key>.json`. -/
structure CacheFile (α : Type) where
  key : String
  project_path : String
  cache_type : String
  project_hash : String
  created_at : Int
  data : α
deriving Repr, DecidableEq

/-- The full state of one `CacheManager` instance: the in-memory index (kept
in sync with `cache_index.json` by `_save_index` after every mutation), the
payload files on disk, the TTL, and the counters. -/
structure CacheState (α : Type) where
  index : List (String × IndexEntry)
  files : List (String × CacheFile α)
  ttl_seconds : Int
  stats : CacheStats
deriving Repr, DecidableEq

/-- `_generate_cache_key` at the call sites used by `get`/`set`, which always
pass `content_hash = project_hash` (the `content_hash is None` fallback is
unreachable from them): `"_".join([cache_type, md5(path)[:12], hash[:8]])`. -/
def generateCacheKey (digest : String → String) (projectPath cacheType contentHash : String) : String :=
  String.intercalate "_" [cacheType, (digest projectPath).take 12, contentHash.take 8]

/-- `_is_cache_valid`: the key must be indexed, not expired
(`time.time() - created_at > ttl_seconds` fails), and its payload file must
exist on disk. -/
def isCacheValid {α : Type} (s : CacheState α) (now : Int) (key : String) : Bool :=
  match dictLookup s.index key with
  | none => false
  | some info =>
      if now - info.created_at > s.ttl_seconds then false
      else (dictLookup s.files key).isSome

/-- `CacheManager.get(project_path, cache_type)`.  `projectHash` is the value
`_get_project_hash(project_path)` returns at call time (the subject's current
fingerprint), `now` the clock.  Returns the payload (or `none`) and the
updated manager state. -/
def CacheManager.get {α : Type} (digest : String → String) (s : CacheState α)
    (projectPath cacheType projectHash : String) (now : Int) :
    Option α × CacheState α :=
  let key := generateCacheKey digest projectPath cacheType projectHash
  if !(isCacheValid s now key) then
    (none, { s with stats := { s.stats with misses := s.stats.misses + 1 } })
  else
    match dictLookup s.files key with
    | some cf =>
        let s' :=
          match dictLookup s.index key with
          | some info =>
              { s with index := dictInsert s.index key { info with last_accessed := now } }
          | none => s
        (some cf.data, { s' with stats := { s'.stats with hits := s'.stats.hits + 1 } })
    | none =>
        -- the `except` path: the file read failed
        (none, { s with stats := { s.stats with
                    errors := s.stats.errors + 1, misses := s.stats.misses + 1 } })

/-- `CacheManager.set(project_path, cache_type, data)`.  `fileSize` models
`cache_file.stat().st_size` on the written payload file; `writeOk` is the
outcome of the `json.dump` payload write.  On a failed write the exception is
raised before the index assignment, so only the error counter changes. -/
def CacheManager.set {α : Type} (digest : String → String)
    (fileSize : CacheFile α → Nat) (s : CacheState α)
    (projectPath cacheType projectHash : String) (now : Int) (data : α)
    (writeOk : Bool) : Bool × CacheState α :=
  let key := generateCacheKey digest projectPath cacheType projectHash
  if writeOk then
    let cf : CacheFile α :=
      { key := key, project_path := projectPath, cache_type := cacheType
        project_hash := projectHash, created_at := now, data := data }
    let files' := dictInsert s.files key cf
    let entry : IndexEntry :=
      { project_path := projectPath, cache_type := cacheType
        project_hash := projectHash, created_at := now, last_accessed := now
        size := fileSize cf }
    (true, { s with files := files', index := dictInsert s.index key entry,
                    stats := { s.stats with sets := s.stats.sets + 1 } })
  else
    (false, { s with stats := { s.stats with errors := s.stats.errors + 1 } })

/-- `_delete_cache`: unlink the payload file, drop the index row. -/
def deleteCache {α : Type} (s : CacheState α) (key : String) : CacheState α :=
  { s with files := dictRemove s.files key, index := dictRemove s.index key }

/-- `_clean_expired_cache`: evict every expired index row.  NOTE: this method
has no caller anywhere in the repository; it is dead code. -/
def cleanExpiredCache {α : Type} (s : CacheState α) (now : Int) : CacheState α :=
  let expired := (s.index.filter
      (fun kv => now - kv.2.created_at > s.ttl_seconds)).map (fun kv => kv.1)
  expired.foldl
    (fun st k =>
      let st' := deleteCache st k
      { st' with stats := { st'.stats with evictions := st'.stats.evictions + 1 } })
    s

/-- `CacheManager.clear`: unlink every payload file, empty the index, zero the
counters.  (The returned count is over the deleted payload files.) -/
def CacheManager.clear {α : Type} (s : CacheState α) : Nat × CacheState α :=
  (s.files.length, { s with files := [], index := [], stats := CacheStats.init })

/-- The dict `get_stats` returns.  `hit_rate_percent` is kept as an exact
rational; the source additionally rounds it to two decimals for display. -/
structure StatsReport where
  total_cached : Nat
  total_size_bytes : Nat
  hits : Nat
  misses : Nat
  sets : Nat
  evictions : Nat
  errors : Nat
  hit_rate_percent : ℚ
deriving Repr, DecidableEq

/-- `CacheManager.get_stats`. -/
def CacheManager.get_stats {α : Type} (s : CacheState α) : StatsReport :=
  let total_size := (s.index.map (fun kv => kv.2.size)).sum
  let total_access := s.stats.hits + s.stats.misses
  { total_cached := s.index.length
    total_size_bytes := total_size
    hits := s.stats.hits
    misses := s.stats.misses
    sets := s.stats.sets
    evictions := s.stats.evictions
    errors := s.stats.errors
    hit_rate_percent :=
      if total_access > 0 then (s.stats.hits * 100 : ℚ) / total_access else 0 }

/-!
### Incremental tracker (`IncrementalProcessingModule`)

Modelling conventions:
* A path is a list of components relative to the tracked project root
  (`[]` = the root); `relOf` joins it to the relative-path string Python
  stores in `file_hashes`.
* `os.walk(project_path)` is an input `walk : List WalkEntry`, one entry per
  visited directory, in walk order.  The source's skip test
  `self.state_dir in Path(root).parents` holds exactly when the state
  directory is a proper ancestor of `root` (the `parents` of a path exclude
  the path itself).
* `_calculate_file_hash` is `hashOf : String → String` on the relative path
  (the file system is fixed during a run; `""` is the source's return for an
  unreadable file).
* `processor_func` is `processor : String → Except String β` — `.error e`
  models a raised exception with message `e`.
* Durable flushes (`_save_state` / `_save_file_hashes` /
  `_save_processing_history`) and processor invocations are recorded in an
  `Event` trace, in source order.
-/

/-- One directory visited by `os.walk`: its path and the filenames in it. -/
structure WalkEntry where
  root : List String
  filenames : List String
deriving Repr, DecidableEq

/-- `self.state_dir in Path(root).parents`: the state dir is a proper
ancestor of `root`.  Note it is FALSE when `root` is the state dir itself. -/
def inParents (stateDir root : List String) : Bool :=
  stateDir.isPrefixOf root && decide (stateDir.length < root.length)

/-- `pathlib.PurePath.suffix`: the extension from the last dot of the final
component, empty for names like `x`, `.hidden` or `a.`. -/
def pathSuffix (name : String) : String :=
  let cs := name.toList
  match List.indexOf? '.' cs.reverse with
  | none => ""
  | some rj =>
      let i := cs.length - 1 - rj
      if 0 < i && i < cs.length - 1 then String.mk (cs.drop i) else ""

/-- The extension filter of `_get_all_project_files`: applied only when
`extensions` is a non-empty list (Python: `if extensions:`);
the comparison lower-cases the suffix. -/
def extMatches (exts : Option (List String)) (filename : String) : Bool :=
  match exts with
  | none => true
  | some [] => true
  | some l => l.contains (pathSuffix filename).toLower

/-- `_get_all_project_files`: walk the tree, skip a directory iff the state
dir is among its `parents`, filter by extension, collect full paths. -/
def getAllProjectFiles (stateDir : List String) (walk : List WalkEntry)
    (exts : Option (List String)) : List (List String) :=
  ((walk.filter (fun d => !(inParents stateDir d.root))).map
    (fun d => (d.filenames.filter (extMatches exts)).map
      (fun fn => d.root ++ [fn]))).flatten

/-- `str(file_path.relative_to(self.project_path))`. -/
def relOf (comps : List String) : String := String.intercalate "/" comps

/-- The pickled `processing_state.pkl` dict. -/
structure TrackerState where
  last_processed_time : Option String
  current_phase : Option String
  completed_phases : List String
  pending_files : List String
  processed_files : List String
  errors : List String
deriving Repr, DecidableEq

/-- The module's `self.stats` dict. -/
structure IncStats where
  total_files_processed : Nat
  new_files_processed : Nat
  modified_files_processed : Nat
  unchanged_files_skipped : Nat
  processing_time_saved : ℚ
deriving Repr, DecidableEq

/-- `changes_detected` counts of a history entry. -/
structure ChangeCounts where
  new_files : Nat
  modified_files : Nat
  deleted_files : Nat
deriving Repr, DecidableEq

/-- `processing_results` counts of a history entry. -/
structure ProcCounts where
  total_processed : Nat
  successful : Nat
  failed : Nat
deriving Repr, DecidableEq

/-- One row of `processing_history.json`. -/
structure HistoryEntry where
  timestamp : String
  changes_detected : ChangeCounts
  processing_results : ProcCounts
  stats : IncStats
deriving Repr, DecidableEq

/-- The in-memory state of one `IncrementalProcessingModule` instance. -/
structure IncState where
  state : TrackerState
  file_hashes : List (String × String)
  processing_history : List HistoryEntry
  stats : IncStats
deriving Repr, DecidableEq

/-- The result dict of `detect_changes`. -/
structure Changes where
  new_files : List String
  modified_files : List String
  deleted_files : List String
  unchanged_files : List String
deriving Repr, DecidableEq

/-- The `current_hashes` dict of `detect_changes`: relative path → hash, in
walk order, skipping files whose hash computation failed (empty hash). -/
def currentHashes (stateDir : List String) (walk : List WalkEntry)
    (hashOf : String → String) (exts : Option (List String)) :
    List (String × String) :=
  (getAllProjectFiles stateDir walk exts).foldl
    (fun acc comps =>
      let h := hashOf (relOf comps)
      if h ≠ "" then dictInsert acc (relOf comps) h else acc) []

/-- `detect_changes`: partition the current files against the persisted hash
table; files in the table but not in the walk are deleted.  Also updates
`stats["total_files_processed"]`. -/
def detect_changes (stateDir : List String) (walk : List WalkEntry)
    (hashOf : String → String) (exts : Option (List String)) (m : IncState) :
    Changes × IncState :=
  let currentFiles := getAllProjectFiles stateDir walk exts
  let cur := currentHashes stateDir walk hashOf exts
  let step1 := cur.foldl
    (fun (c : Changes) kv =>
      match dictLookup m.file_hashes kv.1 with
      | none => { c with new_files := c.new_files ++ [kv.1] }
      | some old =>
          if old ≠ kv.2 then { c with modified_files := c.modified_files ++ [kv.1] }
          else { c with unchanged_files := c.unchanged_files ++ [kv.1] })
    { new_files := [], modified_files := [], deleted_files := [], unchanged_files := [] }
  let changes := m.file_hashes.foldl
    (fun (c : Changes) kv =>
      if (dictLookup cur kv.1).isNone then
        { c with deleted_files := c.deleted_files ++ [kv.1] }
      else c)
    step1
  (changes,
   { m with stats := { m.stats with total_files_processed := currentFiles.length } })

/-- Observable actions of a processing run, in source order. -/
inductive Event where
  | procCall (path : String)
  | saveState
  | saveHashes
  | saveHistory
deriving Repr, DecidableEq

/-- One element of `batch_result["files"]`. -/
structure FileOutcome (β : Type) where
  path : String
  status : String
  result : Option β
  error : Option String
deriving Repr, DecidableEq

/-- One element of `results["batch_results"]`. -/
structure BatchResult (β : Type) where
  batch_number : Nat
  files : List (FileOutcome β)
  successful : Nat
  failed : Nat
deriving Repr, DecidableEq

/-- The `results` dict of `process_incrementally` (its `processed_files`
list is declared but never appended to in the source). -/
structure RunResults (β : Type) where
  processed_files : List String
  successful : Nat
  failed : Nat
  errors : List (String × String)
  batch_results : List (BatchResult β)
deriving Repr, DecidableEq

/-- The batching loop `for i in range(0, len(files), batch_size)`; defined for
`batch_size ≥ 1` (Python raises `ValueError` on step 0). -/
def toBatchesAux {γ : Type} : Nat → Nat → List γ → List (List γ)
  | 0, _, _ => []
  | _, _, [] => []
  | fuel + 1, bs, l => l.take bs :: toBatchesAux fuel bs (l.drop bs)

/-- Split a list into consecutive chunks of `bs` elements. -/
def toBatches {γ : Type} (bs : Nat) (l : List γ) : List (List γ) :=
  toBatchesAux l.length bs l

/-- The body of the inner `for rel_path in batch` loop: call the processor,
on success update the file's hash (recomputed from the file system) and the
per-kind counters, on failure record the error — the loop continues either
way. -/
def processFileStep {β : Type} (hashOf : String → String)
    (processor : String → Except String β) (changes : Changes) (rel : String)
    (acc : IncState × BatchResult β × RunResults β × List Event) :
    IncState × BatchResult β × RunResults β × List Event :=
  let (m, br, res, evs) := acc
  let evs := evs ++ [Event.procCall rel]
  match processor rel with
  | .ok r =>
      let m := { m with file_hashes := dictInsert m.file_hashes rel (hashOf rel) }
      let br := { br with
        files := br.files ++ [{ path := rel, status := "success", result := some r, error := none }]
        successful := br.successful + 1 }
      let m := { m with stats :=
        if changes.new_files.contains rel then
          { m.stats with new_files_processed := m.stats.new_files_processed + 1 }
        else
          { m.stats with modified_files_processed := m.stats.modified_files_processed + 1 } }
      (m, br, res, evs)
  | .error e =>
      let br := { br with
        files := br.files ++ [{ path := rel, status := "failed", result := none, error := some e }]
        failed := br.failed + 1 }
      let res := { res with errors := res.errors ++ [(rel, e)] }
      (m, br, res, evs)

/-- The inner `for rel_path in batch` loop. -/
def runFiles {β : Type} (hashOf : String → String)
    (processor : String → Except String β) (changes : Changes)
    (batch : List String)
    (acc : IncState × BatchResult β × RunResults β × List Event) :
    IncState × BatchResult β × RunResults β × List Event :=
  batch.foldl (fun a rel => processFileStep hashOf processor changes rel a) acc

/-- One iteration of the batch loop: process every file of the batch, fold
the batch tally into `results`, then checkpoint (`_save_state`,
`_save_file_hashes`). -/
def processBatch {β : Type} (hashOf : String → String)
    (processor : String → Except String β) (changes : Changes)
    (batchNum : Nat) (batch : List String) (m : IncState) (res : RunResults β)
    (evs : List Event) : IncState × RunResults β × List Event :=
  let init : IncState × BatchResult β × RunResults β × List Event :=
    (m, { batch_number := batchNum, files := [], successful := 0, failed := 0 }, res, evs)
  let out := runFiles hashOf processor changes batch init
  let m := out.1
  let br := out.2.1
  let res := out.2.2.1
  let evs := out.2.2.2
  let res := { res with
    batch_results := res.batch_results ++ [br]
    successful := res.successful + br.successful
    failed := res.failed + br.failed }
  (m, res, evs ++ [Event.saveState, Event.saveHashes])

/-- All batch iterations, numbering batches from 1. -/
def runBatches {β : Type} (hashOf : String → String)
    (processor : String → Except String β) (changes : Changes) :
    List (List String) → Nat → IncState → RunResults β → List Event →
    IncState × RunResults β × List Event
  | [], _, m, res, evs => (m, res, evs)
  | b :: rest, n, m, res, evs =>
      let out := processBatch hashOf processor changes n b m res evs
      runBatches hashOf processor changes rest (n + 1) out.1 out.2.1 out.2.2

/-- The return value of `process_incrementally`. -/
inductive PIResult (β : Type) where
  | skipped (reason : String) (changes : Changes)
  | completed (results : RunResults β) (changes : Changes) (stats : IncStats)
deriving Repr, DecidableEq

/-- `process_incrementally(processor_func, extensions, batch_size)`: detect
changes; if `new + modified` is empty return a skipped result at once;
otherwise process the changed files in batches (checkpointing state and hash
table after every batch), append one history entry, flush state, hash table
and history, and stamp `last_processed_time`.  `now` is the
`datetime.now().isoformat()` timestamp of the run. -/
def process_incrementally {β : Type} (stateDir : List String)
    (walk : List WalkEntry) (hashOf : String → String)
    (processor : String → Except String β) (exts : Option (List String))
    (batchSize : Nat) (now : String) (m : IncState) :
    PIResult β × IncState × List Event :=
  let dc := detect_changes stateDir walk hashOf exts m
  let changes := dc.1
  let m := dc.2
  let filesToProcess := changes.new_files ++ changes.modified_files
  if filesToProcess.isEmpty then
    (.skipped "no_changes" changes, m, [])
  else
    let res0 : RunResults β :=
      { processed_files := [], successful := 0, failed := 0, errors := [], batch_results := [] }
    let out := runBatches hashOf processor changes (toBatches batchSize filesToProcess) 1 m res0 []
    let m := out.1
    let res := out.2.1
    let evs := out.2.2
    let hist : HistoryEntry :=
      { timestamp := now
        changes_detected :=
          { new_files := changes.new_files.length
            modified_files := changes.modified_files.length
            deleted_files := changes.deleted_files.length }
        processing_results :=
          { total_processed := filesToProcess.length
            successful := res.successful
            failed := res.failed }
        stats := m.stats }
    let m := { m with processing_history := m.processing_history ++ [hist] }
    let evs := evs ++ [Event.saveState, Event.saveHashes, Event.saveHistory]
    let m := { m with state := { m.state with last_processed_time := some now } }
    (.completed res changes m.stats, m, evs)

/-- The return value of `resume_processing`. -/
inductive ResumeResult (β : Type) where
  | noPending
  | run (r : PIResult β)
deriving Repr, DecidableEq

/-- `resume_processing(processor_func, batch_size)`: if `pending_files` is
empty report so; otherwise re-run `process_incrementally` (with the default
`extensions=None` and NO restriction to the pending files), then empty
`pending_files` and save the state. -/
def resume_processing {β : Type} (stateDir : List String)
    (walk : List WalkEntry) (hashOf : String → String)
    (processor : String → Except String β) (batchSize : Nat) (now : String)
    (m : IncState) : ResumeResult β × IncState × List Event :=
  if m.state.pending_files.isEmpty then
    (.noPending, m, [])
  else
    let out := process_incrementally stateDir walk hashOf processor none batchSize now m
    let m := { out.2.1 with state := { out.2.1.state with pending_files := [] } }
    (.run out.1, m, out.2.2 ++ [Event.saveState])

/-! ### Derived descriptions of a processing run -/

/-- Whether a processor call returned without raising. -/
def procOk {β : Type} : Except String β → Bool
  | .ok _ => true
  | .error _ => false

/-- The message of a failed processor call (unused for successes). -/
def procErrMsg {β : Type} : Except String β → String
  | .ok _ => ""
  | .error e => e

/-- The net effect of a run on the hash table: every successfully processed
file's entry is set to its recomputed hash, in processing order. -/
def hashUpdates {β : Type} (hashOf : String → String)
    (processor : String → Except String β) (b : List String)
    (hs : List (String × String)) : List (String × String) :=
  b.foldl (fun hs rel =>
    if procOk (processor rel) then dictInsert hs rel (hashOf rel) else hs) hs

/-- The error records a run of files contributes. -/
def errorsOf {β : Type} (processor : String → Except String β)
    (b : List String) : List (String × String) :=
  (b.filter (fun rel => !procOk (processor rel))).map
    (fun rel => (rel, procErrMsg (processor rel)))

/-- `results["successful"]` of a `process_incrementally` return value. -/
def piSuccessful {β : Type} : PIResult β → Nat
  | .skipped _ _ => 0
  | .completed r _ _ => r.successful

/-- `results["failed"]` of a `process_incrementally` return value. -/
def piFailed {β : Type} : PIResult β → Nat
  | .skipped _ _ => 0
  | .completed r _ _ => r.failed

/-- `results["errors"]` of a `process_incrementally` return value. -/
def piErrors {β : Type} : PIResult β → List (String × String)
  | .skipped _ _ => []
  | .completed r _ _ => r.errors

/-- The fresh-module in-memory state: the `_load_state`, `_load_file_hashes`
and `_load_processing_history` defaults plus zeroed statistics. -/
def initIncState : IncState :=
  { state := { last_processed_time := none, current_phase := none
               completed_phases := [], pending_files := []
               processed_files := [], errors := [] }
    file_hashes := []
    processing_history := []
    stats := { total_files_processed := 0, new_files_processed := 0
               modified_files_processed := 0, unchanged_files_skipped := 0
               processing_time_saved := 0 } }

/-! ### Dictionary lemmas -/

theorem dictLookup_dictInsert_self {α : Type} (l : List (String × α)) (k : String) (v : α) :
    dictLookup (dictInsert l k v) k = some v := by
  induction l with
  | nil => simp [dictInsert, dictLookup]
  | cons hd t ih =>
      obtain ⟨k', w⟩ := hd
      by_cases h : k' = k
      · simp [dictInsert, h, dictLookup]
      · simp [dictInsert, h, dictLookup, ih]

theorem dictLookup_dictInsert_ne {α : Type} (l : List (String × α)) (k k' : String)
    (v : α) (h : k' ≠ k) : dictLookup (dictInsert l k v) k' = dictLookup l k' := by
  have hne : k ≠ k' := Ne.symm h
  induction l with
  | nil => simp [dictInsert, dictLookup, hne]
  | cons hd t ih =>
      obtain ⟨k₀, w⟩ := hd
      by_cases h0 : k₀ = k
      · subst h0
        simp [dictInsert, dictLookup, hne]
      · simp [dictInsert, h0, dictLookup, ih]

/-! ### Cache store theorems -/

/-- Helper: a `get` whose key fails `_is_cache_valid` takes the miss branch. -/
theorem get_invalid {α : Type} (digest : String → String) (s : CacheState α)
    (projectPath cacheType projectHash : String) (now : Int)
    (hvalid : isCacheValid s now (generateCacheKey digest projectPath cacheType projectHash) = false) :
    CacheManager.get digest s projectPath cacheType projectHash now =
      (none, { s with stats := { s.stats with misses := s.stats.misses + 1 } }) := by
  unfold CacheManager.get
  simp [hvalid]

/-- Helper: a `get` whose key is valid and whose payload file holds `cf`
returns `cf.data`. -/
theorem get_valid_fst {α : Type} (digest : String → String) (s : CacheState α)
    (projectPath cacheType projectHash : String) (now : Int) (cf : CacheFile α)
    (hvalid : isCacheValid s now (generateCacheKey digest projectPath cacheType projectHash) = true)
    (hfile : dictLookup s.files (generateCacheKey digest projectPath cacheType projectHash) = some cf) :
    (CacheManager.get digest s projectPath cacheType projectHash now).1 = some cf.data := by
  unfold CacheManager.get
  simp [hvalid, hfile]

/-- Helper: the payload file a successful `set` writes. -/
theorem set_true_files_lookup {α : Type} (digest : String → String)
    (fileSize : CacheFile α → Nat) (s : CacheState α)
    (projectPath cacheType projectHash : String) (t0 : Int) (data : α) :
    dictLookup (CacheManager.set digest fileSize s projectPath cacheType projectHash t0 data true).2.files
        (generateCacheKey digest projectPath cacheType projectHash)
      = some { key := generateCacheKey digest projectPath cacheType projectHash
               project_path := projectPath, cache_type := cacheType
               project_hash := projectHash, created_at := t0, data := data } := by
  simp [CacheManager.set, dictLookup_dictInsert_self]

/-- Helper: the index row a successful `set` writes. -/
theorem set_true_index_lookup {α : Type} (digest : String → String)
    (fileSize : CacheFile α → Nat) (s : CacheState α)
    (projectPath cacheType projectHash : String) (t0 : Int) (data : α) :
    dictLookup (CacheManager.set digest fileSize s projectPath cacheType projectHash t0 data true).2.index
        (generateCacheKey digest projectPath cacheType projectHash)
      = some { project_path := projectPath, cache_type := cacheType
               project_hash := projectHash, created_at := t0, last_accessed := t0
               size := fileSize { key := generateCacheKey digest projectPath cacheType projectHash
                                  project_path := projectPath, cache_type := cacheType
                                  project_hash := projectHash, created_at := t0, data := data } } := by
  simp [CacheManager.set, dictLookup_dictInsert_self]

/-- Helper: `set` never touches the TTL. -/
theorem set_ttl_eq {α : Type} (digest : String → String)
    (fileSize : CacheFile α → Nat) (s : CacheState α)
    (projectPath cacheType projectHash : String) (t0 : Int) (data : α) (writeOk : Bool) :
    (CacheManager.set digest fileSize s projectPath cacheType projectHash t0 data writeOk).2.ttl_seconds
      = s.ttl_seconds := by
  cases writeOk <;> simp [CacheManager.set]

/-- Helper: validity of the freshly written key at a later time `t` reduces to
the TTL test of the source (`t - t0 > ttl` means stale). -/
theorem isCacheValid_after_set {α : Type} (digest : String → String)
    (fileSize : CacheFile α → Nat) (s : CacheState α)
    (projectPath cacheType projectHash : String) (t0 t : Int) (data : α) :
    isCacheValid (CacheManager.set digest fileSize s projectPath cacheType projectHash t0 data true).2 t
        (generateCacheKey digest projectPath cacheType projectHash)
      = !decide (t - t0 > s.ttl_seconds) := by
  unfold isCacheValid
  rw [set_true_index_lookup, set_true_files_lookup, set_ttl_eq]
  by_cases h : t - t0 > s.ttl_seconds
  · simp [h]
  · simp [h]

/-- Helper: after a successful `set` at time `t0`, a `get` with the same
subject path, category and fingerprint at time `t` returns the payload
exactly when `t ≤ t0 + ttl` (the source staleness test is strict). -/
theorem get_fst_after_set {α : Type} (digest : String → String)
    (fileSize : CacheFile α → Nat) (s : CacheState α)
    (projectPath cacheType projectHash : String) (t0 t : Int) (data : α) :
    (CacheManager.get digest
        (CacheManager.set digest fileSize s projectPath cacheType projectHash t0 data true).2
        projectPath cacheType projectHash t).1
      = if t ≤ t0 + s.ttl_seconds then some data else none := by
  by_cases h : t ≤ t0 + s.ttl_seconds
  · rw [if_pos h]
    have hv : isCacheValid (CacheManager.set digest fileSize s projectPath cacheType projectHash t0 data true).2 t
        (generateCacheKey digest projectPath cacheType projectHash) = true := by
      rw [isCacheValid_after_set]
      simp only [Bool.not_eq_true']
      exact decide_eq_false (by omega)
    exact get_valid_fst digest _ projectPath cacheType projectHash t _ hv
      (set_true_files_lookup digest fileSize s projectPath cacheType projectHash t0 data)
  · rw [if_neg h]
    have hv : isCacheValid (CacheManager.set digest fileSize s projectPath cacheType projectHash t0 data true).2 t
        (generateCacheKey digest projectPath cacheType projectHash) = false := by
      rw [isCacheValid_after_set]
      simp only [Bool.not_eq_false']
      exact decide_eq_true (by omega)
    rw [get_invalid digest _ projectPath cacheType projectHash t hv]

/-- C1: cache round-trip (content-addressing).  If
`set(subject, category, payload)` succeeds at time `t0` and a subsequent
`get(subject, category)` runs while the subject's fingerprint is unchanged and
the clock has not moved past the TTL, the `get` returns the payload
unchanged. -/
theorem cache_roundtrip_after_set {α : Type} (digest : String → String)
    (fileSize : CacheFile α → Nat) (s : CacheState α)
    (projectPath cacheType projectHash : String) (t0 t : Int) (data : α)
    (writeOk : Bool)
    (hset : (CacheManager.set digest fileSize s projectPath cacheType projectHash t0 data writeOk).1 = true)
    (hfresh : t ≤ t0 + s.ttl_seconds) :
    (CacheManager.get digest
        (CacheManager.set digest fileSize s projectPath cacheType projectHash t0 data writeOk).2
        projectPath cacheType projectHash t).1 = some data := by
  have hw : writeOk = true := by
    cases writeOk
    · simp [CacheManager.set] at hset
    · rfl
  subst hw
  rw [get_fst_after_set, if_pos hfresh]

/-- Witness for C1 at a concrete input: TTL 3600 s, set at time 100, get at
time 200 with the same fingerprint returns the stored payload. -/
theorem cache_roundtrip_after_set_witness :
    (CacheManager.get (fun p => p)
        (CacheManager.set (fun p => p) (fun _ => 0)
          ({ index := [], files := [], ttl_seconds := 3600,
             stats := CacheStats.init } : CacheState String)
          "proj1" "analysis" "h1" 100 "score85" true).2
        "proj1" "analysis" "h1" 200).1 = some "score85" :=
  cache_roundtrip_after_set (fun p => p) (fun _ => 0) _ "proj1" "analysis" "h1"
    100 200 "score85" true (by decide) (by decide)

/-- C3 counterexample: with TTL `T = 10` and an entry written at `t0 = 0`, a
`get` at exactly `t = t0 + T = 10` still returns the payload, whereas the
claim says every `get` at `t ≥ t0 + T` returns `None` (inclusive boundary). -/
theorem ttl_boundary_counterexample :
    ((CacheManager.get (fun p => p)
        (CacheManager.set (fun p => p) (fun _ => 0)
          ({ index := [], files := [], ttl_seconds := 10,
             stats := CacheStats.init } : CacheState String)
          "proj" "analysis" "h" 0 "payload" true).2
        "proj" "analysis" "h" 10).1 = some "payload") ∧
    ¬ ((CacheManager.get (fun p => p)
        (CacheManager.set (fun p => p) (fun _ => 0)
          ({ index := [], files := [], ttl_seconds := 10,
             stats := CacheStats.init } : CacheState String)
          "proj" "analysis" "h" 0 "payload" true).2
        "proj" "analysis" "h" 10).1 = none) := by
  constructor
  · decide
  · decide

/-- C3 amended: an entry written at `t0` with TTL `T` (fingerprint unchanged)
yields `Some payload` for a `get` at any `t ≤ t0 + T` and `None` for any
`t > t0 + T`: the source's staleness test `now - created_at > ttl` is strict,
so the exact boundary `t = t0 + T` is still a hit. -/
theorem ttl_boundary_amended {α : Type} (digest : String → String)
    (fileSize : CacheFile α → Nat) (s : CacheState α)
    (projectPath cacheType projectHash : String) (t0 t : Int) (data : α) :
    (CacheManager.get digest
        (CacheManager.set digest fileSize s projectPath cacheType projectHash t0 data true).2
        projectPath cacheType projectHash t).1
      = if t ≤ t0 + s.ttl_seconds then some data else none :=
  get_fst_after_set digest fileSize s projectPath cacheType projectHash t0 t data

/-- C2 counterexample: with TTL 10, an entry written at time 0 and a `get` at
time 11 (expired), the `get` returns `None` and counts a miss, but — contrary
to the claim — the expired entry is NOT removed from the index, its payload
file is NOT deleted, and the `evictions` counter stays 0: `get` never calls
`_clean_expired_cache` (no caller in the repository does). -/
theorem lazy_eviction_counterexample :
    ((CacheManager.get (fun p => p)
        (CacheManager.set (fun p => p) (fun _ => 0)
          ({ index := [], files := [], ttl_seconds := 10,
             stats := CacheStats.init } : CacheState String)
          "proj" "analysis" "h" 0 "payload" true).2
        "proj" "analysis" "h" 11).1 = none) ∧
    ((CacheManager.get (fun p => p)
        (CacheManager.set (fun p => p) (fun _ => 0)
          ({ index := [], files := [], ttl_seconds := 10,
             stats := CacheStats.init } : CacheState String)
          "proj" "analysis" "h" 0 "payload" true).2
        "proj" "analysis" "h" 11).2.stats.misses = 1) ∧
    ¬ (((CacheManager.get (fun p => p)
        (CacheManager.set (fun p => p) (fun _ => 0)
          ({ index := [], files := [], ttl_seconds := 10,
             stats := CacheStats.init } : CacheState String)
          "proj" "analysis" "h" 0 "payload" true).2
        "proj" "analysis" "h" 11).2.stats.evictions = 1) ∧
       (dictLookup (CacheManager.get (fun p => p)
        (CacheManager.set (fun p => p) (fun _ => 0)
          ({ index := [], files := [], ttl_seconds := 10,
             stats := CacheStats.init } : CacheState String)
          "proj" "analysis" "h" 0 "payload" true).2
        "proj" "analysis" "h" 11).2.index
          (generateCacheKey (fun p => p) "proj" "analysis" "h") = none)) := by
  refine ⟨by decide, by decide, ?_⟩
  intro hcl
  exact absurd hcl.1 (by decide)

/-- C2 amended: a `get` whose indexed entry is expired at call time returns
`None` and increments `misses` — but it removes nothing: the index, the
payload files and the `evictions` counter are all left unchanged
(`_clean_expired_cache`, which would evict, is dead code). -/
theorem lazy_eviction_amended {α : Type} (digest : String → String)
    (s : CacheState α) (projectPath cacheType projectHash : String)
    (now : Int) (info : IndexEntry)
    (hidx : dictLookup s.index (generateCacheKey digest projectPath cacheType projectHash) = some info)
    (hexp : now - info.created_at > s.ttl_seconds) :
    (CacheManager.get digest s projectPath cacheType projectHash now).1 = none ∧
    (CacheManager.get digest s projectPath cacheType projectHash now).2.index = s.index ∧
    (CacheManager.get digest s projectPath cacheType projectHash now).2.files = s.files ∧
    (CacheManager.get digest s projectPath cacheType projectHash now).2.stats.evictions
      = s.stats.evictions ∧
    (CacheManager.get digest s projectPath cacheType projectHash now).2.stats.misses
      = s.stats.misses + 1 := by
  have hvalid : isCacheValid s now (generateCacheKey digest projectPath cacheType projectHash) = false := by
    unfold isCacheValid
    rw [hidx]
    simp only [if_pos hexp]
  rw [get_invalid digest s projectPath cacheType projectHash now hvalid]
  exact ⟨rfl, rfl, rfl, rfl, rfl⟩

/-- Witness for C2 (amended) at a concrete input: TTL 10, entry created at
time 0, `get` at time 11. -/
theorem lazy_eviction_amended_witness :
    (CacheManager.get (fun p => p)
        (CacheManager.set (fun p => p) (fun _ => 0)
          ({ index := [], files := [], ttl_seconds := 10,
             stats := CacheStats.init } : CacheState String)
          "proj" "analysis" "h" 0 "payload" true).2
        "proj" "analysis" "h" 11).1 = none ∧
    (CacheManager.get (fun p => p)
        (CacheManager.set (fun p => p) (fun _ => 0)
          ({ index := [], files := [], ttl_seconds := 10,
             stats := CacheStats.init } : CacheState String)
          "proj" "analysis" "h" 0 "payload" true).2
        "proj" "analysis" "h" 11).2.index =
      (CacheManager.set (fun p => p) (fun _ => 0)
          ({ index := [], files := [], ttl_seconds := 10,
             stats := CacheStats.init } : CacheState String)
          "proj" "analysis" "h" 0 "payload" true).2.index ∧
    (CacheManager.get (fun p => p)
        (CacheManager.set (fun p => p) (fun _ => 0)
          ({ index := [], files := [], ttl_seconds := 10,
             stats := CacheStats.init } : CacheState String)
          "proj" "analysis" "h" 0 "payload" true).2
        "proj" "analysis" "h" 11).2.files =
      (CacheManager.set (fun p => p) (fun _ => 0)
          ({ index := [], files := [], ttl_seconds := 10,
             stats := CacheStats.init } : CacheState String)
          "proj" "analysis" "h" 0 "payload" true).2.files ∧
    (CacheManager.get (fun p => p)
        (CacheManager.set (fun p => p) (fun _ => 0)
          ({ index := [], files := [], ttl_seconds := 10,
             stats := CacheStats.init } : CacheState String)
          "proj" "analysis" "h" 0 "payload" true).2
        "proj" "analysis" "h" 11).2.stats.evictions =
      (CacheManager.set (fun p => p) (fun _ => 0)
          ({ index := [], files := [], ttl_seconds := 10,
             stats := CacheStats.init } : CacheState String)
          "proj" "analysis" "h" 0 "payload" true).2.stats.evictions ∧
    (CacheManager.get (fun p => p)
        (CacheManager.set (fun p => p) (fun _ => 0)
          ({ index := [], files := [], ttl_seconds := 10,
             stats := CacheStats.init } : CacheState String)
          "proj" "analysis" "h" 0 "payload" true).2
        "proj" "analysis" "h" 11).2.stats.misses =
      (CacheManager.set (fun p => p) (fun _ => 0)
          ({ index := [], files := [], ttl_seconds := 10,
             stats := CacheStats.init } : CacheState String)
          "proj" "analysis" "h" 0 "payload" true).2.stats.misses + 1 :=
  lazy_eviction_amended (fun p => p) _ "proj" "analysis" "h" 11
    { project_path := "proj", cache_type := "analysis", project_hash := "h",
      created_at := 0, last_accessed := 0, size := 0 }
    (by decide) (by decide)

/-- Helper: a successful `set` leaves every other index row unchanged. -/
theorem set_true_index_lookup_ne {α : Type} (digest : String → String)
    (fileSize : CacheFile α → Nat) (s : CacheState α)
    (projectPath cacheType projectHash : String) (t0 : Int) (data : α) (k : String)
    (h : k ≠ generateCacheKey digest projectPath cacheType projectHash) :
    dictLookup (CacheManager.set digest fileSize s projectPath cacheType projectHash t0 data true).2.index k
      = dictLookup s.index k := by
  simp only [CacheManager.set, if_true]
  exact dictLookup_dictInsert_ne _ _ _ _ h

/-- Helper: a successful `set` leaves every other payload file unchanged. -/
theorem set_true_files_lookup_ne {α : Type} (digest : String → String)
    (fileSize : CacheFile α → Nat) (s : CacheState α)
    (projectPath cacheType projectHash : String) (t0 : Int) (data : α) (k : String)
    (h : k ≠ generateCacheKey digest projectPath cacheType projectHash) :
    dictLookup (CacheManager.set digest fileSize s projectPath cacheType projectHash t0 data true).2.files k
      = dictLookup s.files k := by
  simp only [CacheManager.set, if_true]
  exact dictLookup_dictInsert_ne _ _ _ _ h

/-- C7: write-payload-then-index atomicity.  A failed payload write makes
`set` report failure with the index (and payload files) unchanged and only
the error counter bumped; and for either write outcome `set` preserves the
invariant that every indexed key has a payload file on disk. -/
theorem set_payload_then_index {α : Type} (digest : String → String)
    (fileSize : CacheFile α → Nat) (s : CacheState α)
    (projectPath cacheType projectHash : String) (now : Int) (data : α) :
    ((CacheManager.set digest fileSize s projectPath cacheType projectHash now data false).1 = false ∧
     (CacheManager.set digest fileSize s projectPath cacheType projectHash now data false).2.index = s.index ∧
     (CacheManager.set digest fileSize s projectPath cacheType projectHash now data false).2.files = s.files ∧
     (CacheManager.set digest fileSize s projectPath cacheType projectHash now data false).2.stats.errors
       = s.stats.errors + 1) ∧
    ∀ writeOk : Bool,
      (∀ k, (dictLookup s.index k).isSome = true → (dictLookup s.files k).isSome = true) →
      ∀ k, (dictLookup (CacheManager.set digest fileSize s projectPath cacheType projectHash now data writeOk).2.index k).isSome = true →
        (dictLookup (CacheManager.set digest fileSize s projectPath cacheType projectHash now data writeOk).2.files k).isSome = true := by
  refine ⟨⟨rfl, rfl, rfl, rfl⟩, ?_⟩
  intro writeOk hinv k hk
  cases writeOk
  · exact hinv k hk
  · by_cases hkey : k = generateCacheKey digest projectPath cacheType projectHash
    · rw [hkey, set_true_files_lookup]
      rfl
    · rw [set_true_index_lookup_ne digest fileSize s projectPath cacheType projectHash now data k hkey] at hk
      rw [set_true_files_lookup_ne digest fileSize s projectPath cacheType projectHash now data k hkey]
      exact hinv k hk

/-- Witness for C7 at a concrete input: on an empty cache the trivially true
index invariant is preserved by a successful `set`, and in particular the key
just written is backed by a payload file. -/
theorem set_payload_then_index_witness :
    (dictLookup (CacheManager.set (fun p => p) (fun _ => 0)
        ({ index := [], files := [], ttl_seconds := 3600,
           stats := CacheStats.init } : CacheState String)
        "proj" "analysis" "h" 0 "payload" true).2.files
      (generateCacheKey (fun p => p) "proj" "analysis" "h")).isSome = true :=
  (set_payload_then_index (fun p => p) (fun _ => 0)
      ({ index := [], files := [], ttl_seconds := 3600,
         stats := CacheStats.init } : CacheState String)
      "proj" "analysis" "h" 0 "payload").2 true
    (fun k hk => by simp [dictLookup] at hk)
    (generateCacheKey (fun p => p) "proj" "analysis" "h") (by decide)

/-- C10: `clear()` removes every entry and resets the accumulated statistics:
immediately afterwards `get_stats` reports all five counters as 0 and zero
cached entries, and the index is empty. -/
theorem clear_resets_stats_and_index {α : Type} (s : CacheState α) :
    (CacheManager.get_stats (CacheManager.clear s).2).hits = 0 ∧
    (CacheManager.get_stats (CacheManager.clear s).2).misses = 0 ∧
    (CacheManager.get_stats (CacheManager.clear s).2).sets = 0 ∧
    (CacheManager.get_stats (CacheManager.clear s).2).evictions = 0 ∧
    (CacheManager.get_stats (CacheManager.clear s).2).errors = 0 ∧
    (CacheManager.get_stats (CacheManager.clear s).2).total_cached = 0 ∧
    (CacheManager.clear s).2.index = [] := by
  exact ⟨rfl, rfl, rfl, rfl, rfl, rfl, rfl⟩

theorem hashUpdates_nil {β : Type} (hashOf : String → String)
    (processor : String → Except String β) (hs : List (String × String)) :
    hashUpdates hashOf processor [] hs = hs := rfl

theorem hashUpdates_append {β : Type} (hashOf : String → String)
    (processor : String → Except String β) (xs ys : List String)
    (hs : List (String × String)) :
    hashUpdates hashOf processor (xs ++ ys) hs
      = hashUpdates hashOf processor ys (hashUpdates hashOf processor xs hs) := by
  simp [hashUpdates, List.foldl_append]

/-- Final hash-table lookup after a sequence of per-file updates: a file that
was processed and succeeded holds its recomputed hash; any other file keeps
its previous entry (the processor is a pure function, so repeated
occurrences agree). -/
theorem hashUpdates_lookup {β : Type} (hashOf : String → String)
    (processor : String → Except String β) (l : List String) :
    ∀ (hs : List (String × String)) (f : String),
      dictLookup (hashUpdates hashOf processor l hs) f
        = if f ∈ l ∧ procOk (processor f) = true then some (hashOf f)
          else dictLookup hs f := by
  induction l with
  | nil => intro hs f; simp [hashUpdates_nil]
  | cons g t ih =>
      intro hs f
      have hstep : hashUpdates hashOf processor (g :: t) hs
          = hashUpdates hashOf processor t
              (if procOk (processor g) then dictInsert hs g (hashOf g) else hs) := by
        simp [hashUpdates]
      rw [hstep, ih]
      by_cases hmem : f ∈ t ∧ procOk (processor f) = true
      · rw [if_pos hmem, if_pos ⟨List.mem_cons_of_mem g hmem.1, hmem.2⟩]
      · rw [if_neg hmem]
        by_cases hfg : f = g
        · subst hfg
          by_cases hok : procOk (processor f) = true
          · rw [if_pos hok, dictLookup_dictInsert_self,
              if_pos ⟨List.mem_cons_self f t, hok⟩]
          · rw [if_neg (by simpa using hok),
              if_neg (fun hc => hok hc.2)]
        · by_cases hok : procOk (processor g) = true
          · rw [if_pos hok, dictLookup_dictInsert_ne hs g f (hashOf g) hfg,
              if_neg (fun hc => by
                rcases List.mem_cons.mp hc.1 with h | h
                · exact hfg h
                · exact hmem ⟨h, hc.2⟩)]
          · rw [if_neg (by simpa using hok),
              if_neg (fun hc => by
                rcases List.mem_cons.mp hc.1 with h | h
                · exact hfg h
                · exact hmem ⟨h, hc.2⟩)]

/-- Characterization of the inner file loop: hash-table updates, tallies,
error records and the event trace it produces. -/
theorem runFiles_spec {β : Type} (hashOf : String → String)
    (processor : String → Except String β) (changes : Changes) (b : List String) :
    ∀ (m : IncState) (br : BatchResult β) (res : RunResults β) (evs : List Event),
      (runFiles hashOf processor changes b (m, br, res, evs)).1.file_hashes
        = hashUpdates hashOf processor b m.file_hashes ∧
      (runFiles hashOf processor changes b (m, br, res, evs)).2.1.successful
        = br.successful + (b.filter (fun g => procOk (processor g))).length ∧
      (runFiles hashOf processor changes b (m, br, res, evs)).2.1.failed
        = br.failed + (b.filter (fun g => !procOk (processor g))).length ∧
      (runFiles hashOf processor changes b (m, br, res, evs)).2.2.1.errors
        = res.errors ++ errorsOf processor b ∧
      (runFiles hashOf processor changes b (m, br, res, evs)).2.2.1.successful
        = res.successful ∧
      (runFiles hashOf processor changes b (m, br, res, evs)).2.2.1.failed
        = res.failed ∧
      (runFiles hashOf processor changes b (m, br, res, evs)).2.2.1.batch_results
        = res.batch_results ∧
      (runFiles hashOf processor changes b (m, br, res, evs)).2.2.2
        = evs ++ b.map Event.procCall := by
  induction b with
  | nil =>
      intro m br res evs
      simp [runFiles, hashUpdates, errorsOf]
  | cons g t ih =>
      intro m br res evs
      have hcons : runFiles hashOf processor changes (g :: t) (m, br, res, evs)
          = runFiles hashOf processor changes t
              (processFileStep hashOf processor changes g (m, br, res, evs)) := by
        simp [runFiles]
      rw [hcons]
      cases hg : processor g with
      | ok r =>
          simp only [processFileStep, hg]
          refine ⟨?_, ?_, ?_, ?_, ?_, ?_, ?_, ?_⟩
          · rw [(ih _ _ _ _).1]
            simp [hashUpdates, procOk, hg]
          · rw [(ih _ _ _ _).2.1]
            simp [procOk, hg]
            omega
          · rw [(ih _ _ _ _).2.2.1]
            simp [procOk, hg]
          · rw [(ih _ _ _ _).2.2.2.1]
            simp [errorsOf, procOk, hg]
          · rw [(ih _ _ _ _).2.2.2.2.1]
          · rw [(ih _ _ _ _).2.2.2.2.2.1]
          · rw [(ih _ _ _ _).2.2.2.2.2.2.1]
          · rw [(ih _ _ _ _).2.2.2.2.2.2.2]
            simp
      | error e =>
          simp only [processFileStep, hg]
          refine ⟨?_, ?_, ?_, ?_, ?_, ?_, ?_, ?_⟩
          · rw [(ih _ _ _ _).1]
            simp [hashUpdates, procOk, hg]
          · rw [(ih _ _ _ _).2.1]
            simp [procOk, hg]
          · rw [(ih _ _ _ _).2.2.1]
            simp [procOk, hg]
            omega
          · rw [(ih _ _ _ _).2.2.2.1]
            simp [errorsOf, procOk, procErrMsg, hg]
          · rw [(ih _ _ _ _).2.2.2.2.1]
          · rw [(ih _ _ _ _).2.2.2.2.2.1]
          · rw [(ih _ _ _ _).2.2.2.2.2.2.1]
          · rw [(ih _ _ _ _).2.2.2.2.2.2.2]
            simp

theorem errorsOf_append {β : Type} (processor : String → Except String β)
    (xs ys : List String) :
    errorsOf processor (xs ++ ys) = errorsOf processor xs ++ errorsOf processor ys := by
  simp [errorsOf, List.filter_append]

/-- Characterization of one batch iteration. -/
theorem processBatch_spec {β : Type} (hashOf : String → String)
    (processor : String → Except String β) (changes : Changes) (n : Nat)
    (b : List String) (m : IncState) (res : RunResults β) (evs : List Event) :
    (processBatch hashOf processor changes n b m res evs).1.file_hashes
      = hashUpdates hashOf processor b m.file_hashes ∧
    (processBatch hashOf processor changes n b m res evs).2.1.successful
      = res.successful + (b.filter (fun g => procOk (processor g))).length ∧
    (processBatch hashOf processor changes n b m res evs).2.1.failed
      = res.failed + (b.filter (fun g => !procOk (processor g))).length ∧
    (processBatch hashOf processor changes n b m res evs).2.1.errors
      = res.errors ++ errorsOf processor b ∧
    (processBatch hashOf processor changes n b m res evs).2.2
      = evs ++ b.map Event.procCall ++ [Event.saveState, Event.saveHashes] := by
  obtain ⟨h1, h2, h3, h4, h5, h6, h7, h8⟩ :=
    runFiles_spec hashOf processor changes b m
      { batch_number := n, files := [], successful := 0, failed := 0 } res evs
  simp only [processBatch]
  refine ⟨h1, ?_, ?_, h4, ?_⟩
  · rw [h5, h2]
    simp
  · rw [h6, h3]
    simp
  · rw [h8]

/-- Characterization of the whole batch loop: the hash-table updates, tallies
and error records over the concatenation of the batches, and the event trace
`procCall* saveState saveHashes` per batch. -/
theorem runBatches_spec {β : Type} (hashOf : String → String)
    (processor : String → Except String β) (changes : Changes)
    (bss : List (List String)) :
    ∀ (n : Nat) (m : IncState) (res : RunResults β) (evs : List Event),
      (runBatches hashOf processor changes bss n m res evs).1.file_hashes
        = hashUpdates hashOf processor bss.flatten m.file_hashes ∧
      (runBatches hashOf processor changes bss n m res evs).2.1.successful
        = res.successful + (bss.flatten.filter (fun g => procOk (processor g))).length ∧
      (runBatches hashOf processor changes bss n m res evs).2.1.failed
        = res.failed + (bss.flatten.filter (fun g => !procOk (processor g))).length ∧
      (runBatches hashOf processor changes bss n m res evs).2.1.errors
        = res.errors ++ errorsOf processor bss.flatten ∧
      (runBatches hashOf processor changes bss n m res evs).2.2
        = evs ++ (bss.map (fun b =>
            b.map Event.procCall ++ [Event.saveState, Event.saveHashes])).flatten := by
  induction bss with
  | nil =>
      intro n m res evs
      simp [runBatches, hashUpdates, errorsOf]
  | cons b rest ih =>
      intro n m res evs
      obtain ⟨hb1, hb2, hb3, hb4, hb5⟩ :=
        processBatch_spec hashOf processor changes n b m res evs
      obtain ⟨ih1, ih2, ih3, ih4, ih5⟩ :=
        ih (n + 1) (processBatch hashOf processor changes n b m res evs).1
          (processBatch hashOf processor changes n b m res evs).2.1
          (processBatch hashOf processor changes n b m res evs).2.2
      simp only [runBatches]
      refine ⟨?_, ?_, ?_, ?_, ?_⟩
      · rw [ih1, hb1, List.flatten_cons, hashUpdates_append]
      · rw [ih2, hb2, List.flatten_cons]
        simp [List.filter_append]
        omega
      · rw [ih3, hb3, List.flatten_cons]
        simp [List.filter_append]
        omega
      · rw [ih4, hb4, List.flatten_cons, errorsOf_append]
        simp
      · rw [ih5, hb5, List.map_cons, List.flatten_cons]
        simp

theorem toBatchesAux_flatten {γ : Type} (bs : Nat) (hbs : 1 ≤ bs) :
    ∀ (fuel : Nat) (l : List γ), l.length ≤ fuel →
      (toBatchesAux fuel bs l).flatten = l := by
  intro fuel
  induction fuel with
  | zero =>
      intro l hl
      have hnil : l = [] := List.eq_nil_of_length_eq_zero (Nat.le_zero.mp hl)
      subst hnil
      simp [toBatchesAux]
  | succ n ih =>
      intro l hl
      cases l with
      | nil => simp [toBatchesAux]
      | cons x xs =>
          have hstep : toBatchesAux (n + 1) bs (x :: xs)
              = (x :: xs).take bs :: toBatchesAux n bs ((x :: xs).drop bs) := rfl
          rw [hstep, List.flatten_cons,
            ih ((x :: xs).drop bs) (by
              simp only [List.length_drop, List.length_cons]
              simp only [List.length_cons] at hl
              omega)]
          exact List.take_append_drop bs (x :: xs)

/-- For a positive batch size, batching then concatenating is the identity. -/
theorem toBatches_flatten {γ : Type} (bs : Nat) (hbs : 1 ≤ bs) (l : List γ) :
    (toBatches bs l).flatten = l :=
  toBatchesAux_flatten bs hbs l.length l le_rfl

/-- `detect_changes` never touches the hash table. -/
theorem detect_changes_file_hashes (stateDir : List String) (walk : List WalkEntry)
    (hashOf : String → String) (exts : Option (List String)) (m : IncState) :
    (detect_changes stateDir walk hashOf exts m).2.file_hashes = m.file_hashes := rfl

/-- Characterization of a non-skipped `process_incrementally` run: the event
trace is `procCall* saveState saveHashes` per batch followed by the final
`saveState saveHashes saveHistory`; the hash table receives exactly the
per-success updates; and the reported tallies and error list are the ok/fail
partition of the processed files. -/
theorem process_run_spec {β : Type} (stateDir : List String) (walk : List WalkEntry)
    (hashOf : String → String) (processor : String → Except String β)
    (exts : Option (List String)) (batchSize : Nat) (now : String) (m : IncState)
    (hne : (detect_changes stateDir walk hashOf exts m).1.new_files
        ++ (detect_changes stateDir walk hashOf exts m).1.modified_files ≠ []) :
    (process_incrementally stateDir walk hashOf processor exts batchSize now m).2.2
      = ((toBatches batchSize
            ((detect_changes stateDir walk hashOf exts m).1.new_files
              ++ (detect_changes stateDir walk hashOf exts m).1.modified_files)).map
          (fun b => b.map Event.procCall ++ [Event.saveState, Event.saveHashes])).flatten
        ++ [Event.saveState, Event.saveHashes, Event.saveHistory] ∧
    (process_incrementally stateDir walk hashOf processor exts batchSize now m).2.1.file_hashes
      = hashUpdates hashOf processor
          (toBatches batchSize
            ((detect_changes stateDir walk hashOf exts m).1.new_files
              ++ (detect_changes stateDir walk hashOf exts m).1.modified_files)).flatten
          m.file_hashes ∧
    piSuccessful (process_incrementally stateDir walk hashOf processor exts batchSize now m).1
      = ((toBatches batchSize
            ((detect_changes stateDir walk hashOf exts m).1.new_files
              ++ (detect_changes stateDir walk hashOf exts m).1.modified_files)).flatten.filter
          (fun g => procOk (processor g))).length ∧
    piFailed (process_incrementally stateDir walk hashOf processor exts batchSize now m).1
      = ((toBatches batchSize
            ((detect_changes stateDir walk hashOf exts m).1.new_files
              ++ (detect_changes stateDir walk hashOf exts m).1.modified_files)).flatten.filter
          (fun g => !procOk (processor g))).length ∧
    piErrors (process_incrementally stateDir walk hashOf processor exts batchSize now m).1
      = errorsOf processor
          (toBatches batchSize
            ((detect_changes stateDir walk hashOf exts m).1.new_files
              ++ (detect_changes stateDir walk hashOf exts m).1.modified_files)).flatten := by
  obtain ⟨e1, e2, e3, e4, e5⟩ :=
    runBatches_spec hashOf processor (detect_changes stateDir walk hashOf exts m).1
      (toBatches batchSize
        ((detect_changes stateDir walk hashOf exts m).1.new_files
          ++ (detect_changes stateDir walk hashOf exts m).1.modified_files))
      1 (detect_changes stateDir walk hashOf exts m).2
      { processed_files := [], successful := 0, failed := 0, errors := [], batch_results := [] }
      []
  simp only [process_incrementally, List.isEmpty_eq_false.mpr hne, Bool.false_eq_true,
    if_false]
  refine ⟨?_, ?_, ?_, ?_, ?_⟩
  · rw [e5]
    simp
  · rw [e1, detect_changes_file_hashes]
  · simp only [piSuccessful]
    rw [e2]
    simp
  · simp only [piFailed]
    rw [e3]
    simp
  · simp only [piErrors]
    rw [e4]
    simp

/-- C4: no-op short-circuit.  Whenever `detect_changes` reports an empty
`new + modified` set, `process_incrementally` returns a `skipped`
(`no_changes`) result and emits no events at all — in particular the
processor callback is invoked zero times. -/
theorem noop_short_circuit {β : Type} (stateDir : List String)
    (walk : List WalkEntry) (hashOf : String → String)
    (processor : String → Except String β) (exts : Option (List String))
    (batchSize : Nat) (now : String) (m : IncState)
    (hempty : (detect_changes stateDir walk hashOf exts m).1.new_files
        ++ (detect_changes stateDir walk hashOf exts m).1.modified_files = []) :
    (process_incrementally stateDir walk hashOf processor exts batchSize now m).1
      = PIResult.skipped "no_changes" (detect_changes stateDir walk hashOf exts m).1 ∧
    (process_incrementally stateDir walk hashOf processor exts batchSize now m).2.2
      = [] := by
  simp [process_incrementally, hempty]

/-- Witness for C4 at a concrete input: one tracked file whose hash is
already in the table (unchanged), so the diff has no new or modified files. -/
theorem noop_short_circuit_witness :
    (process_incrementally [".incremental_state"]
        [{ root := [], filenames := ["a.py"] }] (fun _ => "h")
        (fun _ => (Except.ok 0 : Except String Nat)) none 10 "T"
        { initIncState with file_hashes := [("a.py", "h")] }).1
      = PIResult.skipped "no_changes"
          (detect_changes [".incremental_state"]
            [{ root := [], filenames := ["a.py"] }] (fun _ => "h") none
            { initIncState with file_hashes := [("a.py", "h")] }).1 ∧
    (process_incrementally [".incremental_state"]
        [{ root := [], filenames := ["a.py"] }] (fun _ => "h")
        (fun _ => (Except.ok 0 : Except String Nat)) none 10 "T"
        { initIncState with file_hashes := [("a.py", "h")] }).2.2
      = [] :=
  noop_short_circuit [".incremental_state"]
    [{ root := [], filenames := ["a.py"] }] (fun _ => "h")
    (fun _ => (Except.ok 0 : Except String Nat)) none 10 "T"
    { initIncState with file_hashes := [("a.py", "h")] } (by decide)

/-- C5: partial-failure isolation and fingerprint-update-on-success.  In any
`process_incrementally` run (batch size ≥ 1), for every changed file `f`:
a processor exception on `f` is caught and recorded under `errors` while
`f` keeps its old fingerprint-table entry; a successful call installs `f`'s
recomputed fingerprint; and the run never aborts — the reported `successful`
and `failed` tallies are exactly the ok/fail partition of all changed files. -/
theorem partial_failure_isolation {β : Type} (stateDir : List String)
    (walk : List WalkEntry) (hashOf : String → String)
    (processor : String → Except String β) (exts : Option (List String))
    (batchSize : Nat) (now : String) (m : IncState) (f : String)
    (hbs : 1 ≤ batchSize)
    (hmem : f ∈ (detect_changes stateDir walk hashOf exts m).1.new_files
        ++ (detect_changes stateDir walk hashOf exts m).1.modified_files) :
    (∀ e, processor f = .error e →
      (f, e) ∈ piErrors (process_incrementally stateDir walk hashOf processor exts batchSize now m).1 ∧
      dictLookup (process_incrementally stateDir walk hashOf processor exts batchSize now m).2.1.file_hashes f
        = dictLookup m.file_hashes f) ∧
    (procOk (processor f) = true →
      dictLookup (process_incrementally stateDir walk hashOf processor exts batchSize now m).2.1.file_hashes f
        = some (hashOf f)) ∧
    piSuccessful (process_incrementally stateDir walk hashOf processor exts batchSize now m).1
      = (((detect_changes stateDir walk hashOf exts m).1.new_files
          ++ (detect_changes stateDir walk hashOf exts m).1.modified_files).filter
          (fun g => procOk (processor g))).length ∧
    piFailed (process_incrementally stateDir walk hashOf processor exts batchSize now m).1
      = (((detect_changes stateDir walk hashOf exts m).1.new_files
          ++ (detect_changes stateDir walk hashOf exts m).1.modified_files).filter
          (fun g => !procOk (processor g))).length := by
  have hne : (detect_changes stateDir walk hashOf exts m).1.new_files
      ++ (detect_changes stateDir walk hashOf exts m).1.modified_files ≠ [] :=
    List.ne_nil_of_mem hmem
  obtain ⟨e1, e2, e3, e4, e5⟩ :=
    process_run_spec stateDir walk hashOf processor exts batchSize now m hne
  rw [toBatches_flatten batchSize hbs] at e2 e3 e4 e5
  refine ⟨?_, ?_, e3, e4⟩
  · intro e he
    have hnok : procOk (processor f) = false := by simp [procOk, he]
    constructor
    · rw [e5]
      have hfil : f ∈ ((detect_changes stateDir walk hashOf exts m).1.new_files
          ++ (detect_changes stateDir walk hashOf exts m).1.modified_files).filter
            (fun g => !procOk (processor g)) :=
        List.mem_filter.mpr ⟨hmem, by simp [hnok]⟩
      have hmap := List.mem_map_of_mem
        (fun g => (g, procErrMsg (processor g))) hfil
      simpa [errorsOf, he, procErrMsg] using hmap
    · rw [e2, hashUpdates_lookup, if_neg (fun hc => by
        rw [hnok] at hc
        exact Bool.false_ne_true hc.2)]
  · intro hok
    rw [e2, hashUpdates_lookup, if_pos ⟨hmem, hok⟩]

/-- Witness for C5 at the spec's concrete scenario: a 5-file batch whose
third file raises — 4 successes, 1 failure, `f3` keeps its old fingerprint
and `f1` gets its recomputed one. -/
theorem partial_failure_isolation_witness :
    ("f3", "boom") ∈ piErrors (process_incrementally [".s"]
        [{ root := [], filenames := ["f1", "f2", "f3", "f4", "f5"] }]
        (fun p => "n" ++ p)
        (fun p => if p = "f3" then (Except.error "boom" : Except String Nat) else Except.ok 1)
        none 10 "T"
        { initIncState with file_hashes :=
            [("f1", "o1"), ("f2", "o2"), ("f3", "o3"), ("f4", "o4"), ("f5", "o5")] }).1 ∧
    dictLookup (process_incrementally [".s"]
        [{ root := [], filenames := ["f1", "f2", "f3", "f4", "f5"] }]
        (fun p => "n" ++ p)
        (fun p => if p = "f3" then (Except.error "boom" : Except String Nat) else Except.ok 1)
        none 10 "T"
        { initIncState with file_hashes :=
            [("f1", "o1"), ("f2", "o2"), ("f3", "o3"), ("f4", "o4"), ("f5", "o5")] }).2.1.file_hashes "f3"
      = some "o3" ∧
    dictLookup (process_incrementally [".s"]
        [{ root := [], filenames := ["f1", "f2", "f3", "f4", "f5"] }]
        (fun p => "n" ++ p)
        (fun p => if p = "f3" then (Except.error "boom" : Except String Nat) else Except.ok 1)
        none 10 "T"
        { initIncState with file_hashes :=
            [("f1", "o1"), ("f2", "o2"), ("f3", "o3"), ("f4", "o4"), ("f5", "o5")] }).2.1.file_hashes "f1"
      = some "nf1" ∧
    piSuccessful (process_incrementally [".s"]
        [{ root := [], filenames := ["f1", "f2", "f3", "f4", "f5"] }]
        (fun p => "n" ++ p)
        (fun p => if p = "f3" then (Except.error "boom" : Except String Nat) else Except.ok 1)
        none 10 "T"
        { initIncState with file_hashes :=
            [("f1", "o1"), ("f2", "o2"), ("f3", "o3"), ("f4", "o4"), ("f5", "o5")] }).1
      = 4 ∧
    piFailed (process_incrementally [".s"]
        [{ root := [], filenames := ["f1", "f2", "f3", "f4", "f5"] }]
        (fun p => "n" ++ p)
        (fun p => if p = "f3" then (Except.error "boom" : Except String Nat) else Except.ok 1)
        none 10 "T"
        { initIncState with file_hashes :=
            [("f1", "o1"), ("f2", "o2"), ("f3", "o3"), ("f4", "o4"), ("f5", "o5")] }).1
      = 1 := by
  have h3 := partial_failure_isolation [".s"]
    [{ root := [], filenames := ["f1", "f2", "f3", "f4", "f5"] }]
    (fun p => "n" ++ p)
    (fun p => if p = "f3" then (Except.error "boom" : Except String Nat) else Except.ok 1)
    none 10 "T"
    { initIncState with file_hashes :=
        [("f1", "o1"), ("f2", "o2"), ("f3", "o3"), ("f4", "o4"), ("f5", "o5")] }
    "f3" (by decide) (by decide)
  have h1 := partial_failure_isolation [".s"]
    [{ root := [], filenames := ["f1", "f2", "f3", "f4", "f5"] }]
    (fun p => "n" ++ p)
    (fun p => if p = "f3" then (Except.error "boom" : Except String Nat) else Except.ok 1)
    none 10 "T"
    { initIncState with file_hashes :=
        [("f1", "o1"), ("f2", "o2"), ("f3", "o3"), ("f4", "o4"), ("f5", "o5")] }
    "f1" (by decide) (by decide)
  refine ⟨(h3.1 "boom" rfl).1, ?_, ?_, ?_, ?_⟩
  · exact ((h3.1 "boom" rfl).2).trans (by decide)
  · exact (h1.2.1 rfl).trans (by decide)
  · exact (h3.2.2.1).trans (by decide)
  · exact (h3.2.2.2).trans (by decide)

/-- C6 counterexample: a 3-file run with batch size 2 executes two batches,
but the whole run emits exactly ONE `saveHistory` flush (at the end), so the
run history is NOT flushed after every batch as the claim states (that would
require at least one `saveHistory` per batch, i.e. at least 2 here). -/
theorem per_batch_checkpoint_counterexample :
    ((process_incrementally [".s"]
        [{ root := [], filenames := ["a.py", "b.py", "c.py"] }] (fun _ => "h")
        (fun _ => (Except.ok 0 : Except String Nat)) none 2 "T"
        initIncState).2.2).count Event.saveHistory = 1 ∧
    (toBatches 2
        ((detect_changes [".s"]
            [{ root := [], filenames := ["a.py", "b.py", "c.py"] }] (fun _ => "h")
            none initIncState).1.new_files
          ++ (detect_changes [".s"]
            [{ root := [], filenames := ["a.py", "b.py", "c.py"] }] (fun _ => "h")
            none initIncState).1.modified_files)).length = 2 ∧
    ¬ (2 ≤ ((process_incrementally [".s"]
        [{ root := [], filenames := ["a.py", "b.py", "c.py"] }] (fun _ => "h")
        (fun _ => (Except.ok 0 : Except String Nat)) none 2 "T"
        initIncState).2.2).count Event.saveHistory) := by
  refine ⟨by decide, by decide, by decide⟩

/-- C6 amended: after every batch exactly the fingerprint table and the
tracker state are flushed (`saveState`, `saveHashes` close each batch); the
run history is flushed only once, at the end of the run, together with one
final state and fingerprint-table flush. -/
theorem per_batch_checkpoint_amended {β : Type} (stateDir : List String)
    (walk : List WalkEntry) (hashOf : String → String)
    (processor : String → Except String β) (exts : Option (List String))
    (batchSize : Nat) (now : String) (m : IncState) (hbs : 1 ≤ batchSize)
    (hne : (detect_changes stateDir walk hashOf exts m).1.new_files
        ++ (detect_changes stateDir walk hashOf exts m).1.modified_files ≠ []) :
    (process_incrementally stateDir walk hashOf processor exts batchSize now m).2.2
      = ((toBatches batchSize
            ((detect_changes stateDir walk hashOf exts m).1.new_files
              ++ (detect_changes stateDir walk hashOf exts m).1.modified_files)).map
          (fun b => b.map Event.procCall ++ [Event.saveState, Event.saveHashes])).flatten
        ++ [Event.saveState, Event.saveHashes, Event.saveHistory] :=
  (process_run_spec stateDir walk hashOf processor exts batchSize now m hne).1

/-- Witness for C6 (amended) at the counterexample's input: the full trace of
the 3-file, batch-size-2 run. -/
theorem per_batch_checkpoint_amended_witness :
    (process_incrementally [".s"]
        [{ root := [], filenames := ["a.py", "b.py", "c.py"] }] (fun _ => "h")
        (fun _ => (Except.ok 0 : Except String Nat)) none 2 "T"
        initIncState).2.2
      = [Event.procCall "a.py", Event.procCall "b.py",
         Event.saveState, Event.saveHashes,
         Event.procCall "c.py", Event.saveState, Event.saveHashes,
         Event.saveState, Event.saveHashes, Event.saveHistory] :=
  (per_batch_checkpoint_amended [".s"]
      [{ root := [], filenames := ["a.py", "b.py", "c.py"] }] (fun _ => "h")
      (fun _ => (Except.ok 0 : Except String Nat)) none 2 "T"
      initIncState (by decide) (by decide)).trans (by decide)

/-- C8 counterexample: a persisted state whose `pending_files` is exactly
`["a.py"]` while `b.py` is also modified on disk — the resumed run invokes
the processor on `b.py` even though it is not in `pending_files`, so the run
is NOT restricted to the pending list. -/
theorem resume_restriction_counterexample :
    Event.procCall "b.py" ∈ (resume_processing [".s"]
        [{ root := [], filenames := ["a.py", "b.py"] }] (fun p => "n" ++ p)
        (fun _ => (Except.ok 0 : Except String Nat)) 10 "T"
        { initIncState with
            state := { initIncState.state with pending_files := ["a.py"] }
            file_hashes := [("a.py", "oa"), ("b.py", "ob")] }).2.2 ∧
    "b.py" ∉ ({ initIncState with
        state := { initIncState.state with pending_files := ["a.py"] }
        file_hashes := [("a.py", "oa"), ("b.py", "ob")] } : IncState).state.pending_files := by
  refine ⟨by decide, by decide⟩

/-- C8 amended: with a non-empty `pending_files`, `resume_processing` simply
re-invokes `process_incrementally` on a fresh diff with the default
`extensions=None` and NO restriction whatsoever to the pending files — the
processor receives every file of `new + modified` of that fresh diff — and
afterwards clears `pending_files` and saves the state. -/
theorem resume_unrestricted {β : Type} (stateDir : List String)
    (walk : List WalkEntry) (hashOf : String → String)
    (processor : String → Except String β) (batchSize : Nat) (now : String)
    (m : IncState) (hpending : m.state.pending_files ≠ []) :
    (resume_processing stateDir walk hashOf processor batchSize now m).1
      = ResumeResult.run (process_incrementally stateDir walk hashOf processor none batchSize now m).1 ∧
    (resume_processing stateDir walk hashOf processor batchSize now m).2.2
      = (process_incrementally stateDir walk hashOf processor none batchSize now m).2.2
        ++ [Event.saveState] ∧
    (resume_processing stateDir walk hashOf processor batchSize now m).2.1.state.pending_files
      = [] := by
  simp [resume_processing, List.isEmpty_eq_false.mpr hpending]

/-- Witness for C8 (amended) at the counterexample's input. -/
theorem resume_unrestricted_witness :
    (resume_processing [".s"]
        [{ root := [], filenames := ["a.py", "b.py"] }] (fun p => "n" ++ p)
        (fun _ => (Except.ok 0 : Except String Nat)) 10 "T"
        { initIncState with
            state := { initIncState.state with pending_files := ["a.py"] }
            file_hashes := [("a.py", "oa"), ("b.py", "ob")] }).1
      = ResumeResult.run (process_incrementally [".s"]
          [{ root := [], filenames := ["a.py", "b.py"] }] (fun p => "n" ++ p)
          (fun _ => (Except.ok 0 : Except String Nat)) none 10 "T"
          { initIncState with
              state := { initIncState.state with pending_files := ["a.py"] }
              file_hashes := [("a.py", "oa"), ("b.py", "ob")] }).1 ∧
    (resume_processing [".s"]
        [{ root := [], filenames := ["a.py", "b.py"] }] (fun p => "n" ++ p)
        (fun _ => (Except.ok 0 : Except String Nat)) 10 "T"
        { initIncState with
            state := { initIncState.state with pending_files := ["a.py"] }
            file_hashes := [("a.py", "oa"), ("b.py", "ob")] }).2.2
      = (process_incrementally [".s"]
          [{ root := [], filenames := ["a.py", "b.py"] }] (fun p => "n" ++ p)
          (fun _ => (Except.ok 0 : Except String Nat)) none 10 "T"
          { initIncState with
              state := { initIncState.state with pending_files := ["a.py"] }
              file_hashes := [("a.py", "oa"), ("b.py", "ob")] }).2.2
        ++ [Event.saveState] ∧
    (resume_processing [".s"]
        [{ root := [], filenames := ["a.py", "b.py"] }] (fun p => "n" ++ p)
        (fun _ => (Except.ok 0 : Except String Nat)) 10 "T"
        { initIncState with
            state := { initIncState.state with pending_files := ["a.py"] }
            file_hashes := [("a.py", "oa"), ("b.py", "ob")] }).2.1.state.pending_files
      = [] :=
  resume_unrestricted [".s"]
    [{ root := [], filenames := ["a.py", "b.py"] }] (fun p => "n" ++ p)
    (fun _ => (Except.ok 0 : Except String Nat)) 10 "T"
    { initIncState with
        state := { initIncState.state with pending_files := ["a.py"] }
        file_hashes := [("a.py", "oa"), ("b.py", "ob")] } (by decide)

/-- C9 (code bug): the walk's skip test `state_dir in Path(root).parents`
holds only for STRICT subdirectories of the state directory, so the state
directory's own files (`file_hashes.json`, `processing_state.pkl`) are walked
and reported as new files by `detect_changes`, while files in a subdirectory
of the state dir are excluded. -/
theorem state_dir_not_excluded :
    (detect_changes [".incremental_state"]
        [{ root := [], filenames := ["a.py"] },
         { root := [".incremental_state"],
           filenames := ["file_hashes.json", "processing_state.pkl"] },
         { root := [".incremental_state", "sub"], filenames := ["x.json"] }]
        (fun _ => "h") none initIncState).1.new_files
      = ["a.py", ".incremental_state/file_hashes.json",
         ".incremental_state/processing_state.pkl"] := by
  decide
